import Mathlib

/-!
Verification of the projectile-motion simulator (src/ch10_projectile.py and
src/main_animation.py) against its specification.

Modelling conventions:
* Python float arithmetic is embedded as exact field arithmetic.  The physics
  step `Projectile.update` is defined over an arbitrary field so that claims
  can be read over the rationals (exact arithmetic) or the reals.
* `math.radians`, `math.cos`, `math.sin`, `math.sqrt` in the constructor are
  embedded over the reals with `Real.cos`, `Real.sin`, `Real.sqrt`.
* In the driver model (`ProjectileApp.updateShots`), `math.sqrt` is an
  abstract parameter `sq : ℚ → ℚ`: the driver only threads the speed value
  through to the display, so every driver-level theorem is proved for an
  arbitrary square-root function.
* Mutation of Python objects is made explicit: each mutated object's
  post-frame state is returned (field `processed` of `FrameState` records the
  final states of all shot objects processed this frame, `alive` records the
  rebuilt `self.shots` list).
-/

namespace ProjSim

/-- `math.radians`: degrees to radians. -/
noncomputable def radians (x : ℝ) : ℝ := x * (Real.pi / 180)

/-- State of `ch10_projectile.Projectile`: fields `xpos`, `ypos`, `xvel`,
`yvel`, in source order. -/
structure Projectile (α : Type) where
  xpos : α
  ypos : α
  xvel : α
  yvel : α
deriving DecidableEq

/-- `Projectile.update(time)`: trapezoidal step of the source, line for line:
`xpos += time*xvel`; `yvel1 = yvel - 9.8*time`;
`ypos += time*(yvel + yvel1)/2.0`; `yvel = yvel1`. -/
def Projectile.update {α : Type} [Field α] (p : Projectile α) (time : α) :
    Projectile α :=
  let xpos := p.xpos + time * p.xvel
  let yvel1 := p.yvel - 9.8 * time
  let ypos := p.ypos + time * (p.yvel + yvel1) / 2
  { xpos := xpos, ypos := ypos, xvel := p.xvel, yvel := yvel1 }

/-- `Projectile.getVel()`: `sqrt(xvel**2 + yvel**2)`, with the square-root
function passed explicitly (`Real.sqrt` for the real program; the driver
theorems hold for an arbitrary `sq`). -/
def Projectile.getVel {α : Type} [Field α] (sq : α → α) (p : Projectile α) : α :=
  sq (p.xvel ^ 2 + p.yvel ^ 2)

/-- `Projectile.__init__(angle, velocity, height)`: position `(0, height)`,
velocity `(velocity*cos(radians angle), velocity*sin(radians angle))`. -/
noncomputable def Projectile.construct (angle velocity height : ℝ) : Projectile ℝ :=
  { xpos := 0
    ypos := height
    xvel := velocity * Real.cos (radians angle)
    yvel := velocity * Real.sin (radians angle) }

/-- Aim state of `main_animation.Launcher` (drawing effects dropped):
`angle` is stored in radians, `vel` in m/s. -/
structure Launcher where
  angle : ℝ
  vel : ℝ

/-- `Launcher.__init__`: `angle = radians(45.0)`, `vel = 40.0`. -/
noncomputable def Launcher.construct : Launcher :=
  { angle := radians 45, vel := 40 }

/-- `Launcher.adjAngle(amt)`: `angle = angle + radians(amt)`, no clamping. -/
noncomputable def Launcher.adjAngle (l : Launcher) (amt : ℝ) : Launcher :=
  { l with angle := l.angle + radians amt }

/-- `Launcher.adjVel(amt)`: `vel = vel + amt`, no clamping. -/
noncomputable def Launcher.adjVel (l : Launcher) (amt : ℝ) : Launcher :=
  { l with vel := l.vel + amt }

/-- Apply a whole sequence of `update` calls (one `dt` per call). -/
def Projectile.updates {α : Type} [Field α] (p : Projectile α)
    (dts : List α) : Projectile α :=
  dts.foldl Projectile.update p

/- ### Driver model: ShotTracker and ProjectileApp.updateShots / run -/

/-- A Python value that is either a string or a number: the driver's shared
display variables `x`, `y`, `v` hold rounded numbers or sentinel strings. -/
inductive Val where
  | str (s : String)
  | num (q : ℚ)
deriving DecidableEq

/-- Python 3 `round(q, 1)`: round to one decimal place, ties to even
(modelled on exact rationals; the claims do not depend on tie behaviour). -/
def round1 (q : ℚ) : ℚ :=
  let m : ℚ := 10 * q
  let f : ℤ := Int.floor m
  let r : ℤ :=
    if m - f < 1 / 2 then f
    else if 1 / 2 < m - f then f + 1
    else if f % 2 = 0 then f else f + 1
  (r : ℚ) / 10

/-- State of `main_animation.ShotTracker` relevant to the claims: the owned
projectile, and whether the marker circle and the overlay text elements are
currently drawn.  Overlay text contents are not modelled, only visibility. -/
structure ShotTracker where
  proj : Projectile ℚ
  markerDrawn : Bool
  overlayDrawn : Bool
deriving DecidableEq

/-- `ShotTracker.getX()`: the projectile's x position. -/
def ShotTracker.getX (s : ShotTracker) : ℚ := s.proj.xpos

/-- `ShotTracker.getY()`: the projectile's y position. -/
def ShotTracker.getY (s : ShotTracker) : ℚ := s.proj.ypos

/-- `ShotTracker.getVel()`: the projectile's current speed. -/
def ShotTracker.getVel (sq : ℚ → ℚ) (s : ShotTracker) : ℚ :=
  s.proj.getVel sq

/-- `ShotTracker.update(dt)`: advance the projectile; the overlay stays as it
is while `y >= 0 and x <= 420`, otherwise all overlay text elements are
undrawn (the source never re-draws them). -/
def ShotTracker.update (s : ShotTracker) (dt : ℚ) : ShotTracker :=
  let p := s.proj.update dt
  if p.ypos ≥ 0 ∧ p.xpos ≤ 420 then { s with proj := p }
  else { s with proj := p, overlayDrawn := false }

/-- `ShotTracker.undraw()`: undraw the marker circle. -/
def ShotTracker.undraw (s : ShotTracker) : ShotTracker :=
  { s with markerDrawn := false }

/-- Loop state of `ProjectileApp.updateShots`: the Python locals `alive`,
`x`, `y`, `v`, plus `processed`, which makes the in-place mutation of the
shot objects explicit (the final state of every shot processed so far,
whether or not it stays alive). -/
structure FrameState where
  alive : List ShotTracker
  processed : List ShotTracker
  x : Val
  y : Val
  v : Val
deriving DecidableEq

/-- Loop entry state: `alive = []`, `x = y = v = ""`. -/
def FrameState.start : FrameState :=
  { alive := [], processed := [], x := Val.str "", y := Val.str "",
    v := Val.str "" }

/-- The display candidates `(x, y, v)` a frame hands to the run loop. -/
def FrameState.triple (st : FrameState) : Val × Val × Val := (st.x, st.y, st.v)

/-- One iteration of the `for shot in self.shots` loop of
`ProjectileApp.updateShots(dt)`: `shot.update(dt)`; `x`, `v` overwritten with
the rounded position and speed; then the three-way classification
(`y > 0 and x < 420` → keep alive; `y > 0 and x > 420` → sentinel strings and
undraw; otherwise → `y = 0.0` and undraw). -/
def processShot (sq : ℚ → ℚ) (dt : ℚ) (st : FrameState)
    (shot : ShotTracker) : FrameState :=
  let s := shot.update dt
  let x := Val.num (round1 s.getX)
  let v := Val.num (round1 (s.getVel sq))
  if s.getY > 0 ∧ s.getX < 420 then
    { st with
      alive := st.alive ++ [s]
      processed := st.processed ++ [s]
      x := x
      y := Val.num (round1 s.getY)
      v := v }
  else if s.getY > 0 ∧ s.getX > 420 then
    { st with
      processed := st.processed ++ [s.undraw]
      x := Val.str "N/A (>420)"
      y := Val.num 0
      v := Val.str "N/A" }
  else
    { st with
      processed := st.processed ++ [s.undraw]
      x := x
      y := Val.num 0
      v := v }

/-- `ProjectileApp.updateShots(dt)`: process every shot of `self.shots` in
order, rebuild `self.shots` (field `alive` of the result) and produce the
shared display candidates `x, y, v`. -/
def ProjectileApp.updateShots (sq : ℚ → ℚ) (shots : List ShotTracker)
    (dt : ℚ) : FrameState :=
  shots.foldl (processShot sq dt) FrameState.start

/-- Python truth value of `y <= 0.0` for a shared display variable that holds
either a number or a string (in `run` the string case is unreachable: it is
guarded by `x != ""`, and Python's `and` short-circuits). -/
def Val.le0 : Val → Bool
  | Val.num q => decide (q ≤ 0)
  | Val.str _ => false

/-- The per-frame summary update of `ProjectileApp.run`:
`if x != "" and y <= 0.0: finPos.setText(x); finVel.setText(v)`.
`fin0` is the persistent `(finPos, finVel)` text pair. -/
def runSummary (fin0 : Val × Val) (x y v : Val) : Val × Val :=
  if x ≠ Val.str "" ∧ Val.le0 y = true then (x, v) else fin0

/-- Stand-in for `math.sqrt` in concrete witnesses; every sample shot below
has zero velocity, where the true square root of `vx^2 + vy^2` is also 0.
The driver theorems hold for an arbitrary square-root function. -/
def sqrtZero : ℚ → ℚ := fun _ => 0

/-- Sample shot: after one `update` with `dt = 10` it sits at `(500, 110)` —
off-window (`x > 420`) and above the ground. -/
def shotA : ShotTracker :=
  { proj := { xpos := 500, ypos := 600, xvel := 0, yvel := 0 }
    markerDrawn := true
    overlayDrawn := true }

/-- Sample shot: after one `update` with `dt = 10` it sits at `(100, 10)` —
in-window (`x < 420`) and above the ground. -/
def shotB : ShotTracker :=
  { proj := { xpos := 100, ypos := 500, xvel := 0, yvel := 0 }
    markerDrawn := true
    overlayDrawn := true }

/-- Sample shot: after one `update` with `dt = 10` it sits at `(420, 10)` —
exactly on the `x = 420` boundary and above the ground. -/
def shotE : ShotTracker :=
  { proj := { xpos := 420, ypos := 500, xvel := 0, yvel := 0 }
    markerDrawn := true
    overlayDrawn := true }

/- ### Helper lemmas for the iterated physics step -/

theorem update_yvel {α : Type} [Field α] (p : Projectile α) (dt : α) :
    (p.update dt).yvel = p.yvel - 9.8 * dt := rfl

theorem update_ypos {α : Type} [Field α] (p : Projectile α) (dt : α) :
    (p.update dt).ypos = p.ypos + dt * (p.yvel + (p.yvel - 9.8 * dt)) / 2 := rfl

theorem iterate_update_yvel (p : Projectile ℚ) (dt : ℚ) (n : ℕ) :
    ((fun q : Projectile ℚ => q.update dt)^[n] p).yvel
      = p.yvel - 9.8 * (n * dt) := by
  induction n with
  | zero => simp
  | succ k ih =>
      rw [Function.iterate_succ_apply', update_yvel, ih]
      push_cast
      ring

/- ### Claims C1, C5, C8 (physics step) -/

/-- C1: one `Projectile.update(dt)` call produces exactly
`new_vy = vy - 9.8*dt`, `new_y = y + dt*(vy + new_vy)/2` (average of old and
new vertical velocity), `new_x = x + dt*vx`, and leaves `vx` unchanged —
over any field (in particular over exact rational arithmetic). -/
theorem claim_C1_update_step (α : Type) [Field α] (p : Projectile α) (dt : α) :
    (p.update dt).yvel = p.yvel - 9.8 * dt ∧
    (p.update dt).ypos = p.ypos + dt * (p.yvel + (p.yvel - 9.8 * dt)) / 2 ∧
    (p.update dt).xpos = p.xpos + dt * p.xvel ∧
    (p.update dt).xvel = p.xvel :=
  ⟨rfl, rfl, rfl, rfl⟩

/-- C5: over exact rational arithmetic, `n` applications of
`Projectile.update(dt)` give the closed-form height
`y = y0 + vy0*T - 4.9*T^2` with `T = n*dt`, for every starting state. -/
theorem claim_C5_closed_form (p : Projectile ℚ) (dt : ℚ) (n : ℕ) :
    ((fun q : Projectile ℚ => q.update dt)^[n] p).ypos
      = p.ypos + p.yvel * (n * dt) - 4.9 * (n * dt) ^ 2 := by
  induction n with
  | zero => simp
  | succ k ih =>
      rw [Function.iterate_succ_apply', update_ypos, ih,
        iterate_update_yvel]
      push_cast
      ring

/-- C8: `xvel` is unchanged by any sequence of `update` calls (with
arbitrary, possibly different, step sizes). -/
theorem claim_C8_xvel_constant (α : Type) [Field α] (p : Projectile α)
    (dts : List α) : (p.updates dts).xvel = p.xvel := by
  induction dts generalizing p with
  | nil => rfl
  | cons d t ih => exact (ih (p.update d))

/- ### Claim C4 (constructor and speed query) -/

/-- C4 counterexample: with a negative input speed the speed query does not
return the input speed: `Projectile(0, -1, 0).getVel() = 1 ≠ -1`
(`sqrt` of `vx^2 + vy^2` is the absolute value of the speed). -/
theorem claim_C4_counterexample :
    Projectile.getVel Real.sqrt (Projectile.construct 0 (-1) 0) = 1 ∧
    (1 : ℝ) ≠ -1 := by
  constructor
  · simp [Projectile.getVel, Projectile.construct, radians]
  · norm_num

/-- C4 amended: after construction the position is `(0, height)` and the
velocity is `(speed*cos(radians angle), speed*sin(radians angle))`;
`vx^2 + vy^2 = speed^2` exactly, and the speed query returns `|speed|`,
which equals the input speed whenever the input speed is nonnegative. -/
theorem claim_C4_construct (angle v h : ℝ) :
    (Projectile.construct angle v h).xpos = 0 ∧
    (Projectile.construct angle v h).ypos = h ∧
    (Projectile.construct angle v h).xvel = v * Real.cos (radians angle) ∧
    (Projectile.construct angle v h).yvel = v * Real.sin (radians angle) ∧
    (Projectile.construct angle v h).xvel ^ 2
      + (Projectile.construct angle v h).yvel ^ 2 = v ^ 2 ∧
    Projectile.getVel Real.sqrt (Projectile.construct angle v h) = |v| := by
  have hid := Real.sin_sq_add_cos_sq (radians angle)
  have h2 : (v * Real.cos (radians angle)) ^ 2
      + (v * Real.sin (radians angle)) ^ 2 = v ^ 2 := by nlinarith [hid]
  refine ⟨rfl, rfl, rfl, rfl, h2, ?_⟩
  simp only [Projectile.getVel, Projectile.construct]
  rw [h2, Real.sqrt_sq_eq_abs]

/- ### Claim C7 (launcher angle accumulation) -/

theorem foldl_adjAngle_angle (deltas : List ℝ) :
    ∀ l : Launcher,
      (deltas.foldl Launcher.adjAngle l).angle = l.angle + radians deltas.sum := by
  induction deltas with
  | nil => intro l; simp [radians]
  | cons d t ih =>
      intro l
      simp only [List.foldl_cons, List.sum_cons, ih]
      simp only [Launcher.adjAngle, radians]
      ring

/-- C7: after any sequence of `adjAngle` calls the stored angle (in radians)
is `radians (45 + sum of the deltas in degrees)` — no clamping — and in
particular five `adjAngle(2.5)` calls from the default give a stored angle of
57.5 degrees. -/
theorem claim_C7_angle_accumulation (deltas : List ℝ) :
    (deltas.foldl Launcher.adjAngle Launcher.construct).angle
      = radians (45 + deltas.sum) ∧
    (([2.5, 2.5, 2.5, 2.5, 2.5] : List ℝ).foldl Launcher.adjAngle
        Launcher.construct).angle = radians 57.5 := by
  constructor
  · rw [foldl_adjAngle_angle]
    simp only [Launcher.construct, radians]
    ring
  · rw [foldl_adjAngle_angle]
    simp only [Launcher.construct, radians, List.sum_cons, List.sum_nil]
    ring

/- ### Helper lemmas for the driver loop -/

theorem foldl_processShot_alive (sq : ℚ → ℚ) (dt : ℚ)
    (shots : List ShotTracker) :
    ∀ st : FrameState,
      (shots.foldl (processShot sq dt) st).alive
        = st.alive ++ (shots.map (fun s => s.update dt)).filter
            (fun s => decide (s.getY > 0 ∧ s.getX < 420)) := by
  induction shots with
  | nil => intro st; simp
  | cons a t ih =>
      intro st
      rw [List.foldl_cons, ih]
      by_cases h1 : (a.update dt).getY > 0 ∧ (a.update dt).getX < 420
      · simp [processShot, h1]
      · by_cases h2 : (a.update dt).getY > 0 ∧ (a.update dt).getX > 420
        · have h3 : ¬(a.update dt).getX < 420 := by linarith [h2.2]
          simp [processShot, h2, h3]
        · simp [processShot, h1, h2]

theorem processShot_triple (sq : ℚ → ℚ) (dt : ℚ) (st st2 : FrameState)
    (shot : ShotTracker) :
    (processShot sq dt st shot).triple
      = (processShot sq dt st2 shot).triple := by
  by_cases h1 : (shot.update dt).getY > 0 ∧ (shot.update dt).getX < 420
  · simp [processShot, FrameState.triple, h1]
  · by_cases h2 : (shot.update dt).getY > 0 ∧ (shot.update dt).getX > 420
    · have h3 : ¬(shot.update dt).getX < 420 := by linarith [h2.2]
      simp [processShot, FrameState.triple, h2, h3]
    · simp [processShot, FrameState.triple, h1, h2]

theorem updateShots_triple_last (sq : ℚ → ℚ) (dt : ℚ)
    (front : List ShotTracker) (lastShot : ShotTracker) :
    (ProjectileApp.updateShots sq (front ++ [lastShot]) dt).triple
      = (processShot sq dt FrameState.start lastShot).triple := by
  unfold ProjectileApp.updateShots
  rw [List.foldl_append]
  exact processShot_triple sq dt _ FrameState.start lastShot

theorem processShot_offwindow (sq : ℚ → ℚ) (dt : ℚ) (st : FrameState)
    (shot : ShotTracker) (hy : (shot.update dt).getY > 0)
    (hx : (shot.update dt).getX > 420) :
    processShot sq dt st shot
      = { st with
          processed := st.processed ++ [(shot.update dt).undraw]
          x := Val.str "N/A (>420)"
          y := Val.num 0
          v := Val.str "N/A" } := by
  have h3 : ¬(shot.update dt).getX < 420 := by linarith [hx]
  simp [processShot, h3, hy, hx]

/- ### Claims C2, C3, C6, C9, C10 (driver) -/

/-- C2 counterexample: a shot whose post-update position has `y > 0` and
`x > 420` does not remain in the active collection — `updateShots` rebuilds
`self.shots` as the empty list. -/
theorem claim_C2_counterexample :
    ((shotA.update 10).getY > 0 ∧ (shotA.update 10).getX > 420)
      ∧ (ProjectileApp.updateShots sqrtZero [shotA] 10).alive = [] := by
  refine ⟨⟨?_, ?_⟩, ?_⟩ <;>
    norm_num [shotA, ShotTracker.update, ShotTracker.getX, ShotTracker.getY,
      Projectile.update, ProjectileApp.updateShots, processShot,
      FrameState.start, List.foldl]

/-- C2 amended: the rebuilt active collection consists exactly of the updated
shots with `y > 0` and `x < 420`, in order — so a shot is removed exactly
when `y ≤ 0` or `x ≥ 420` after Advance (not only when it lands), a shot with
`y > 0` and `x > 420` is removed rather than kept, and a removed shot never
reappears (the rebuilt collection is a filter of the updated shots). -/
theorem claim_C2_retirement (sq : ℚ → ℚ) (shots : List ShotTracker)
    (dt : ℚ) :
    (ProjectileApp.updateShots sq shots dt).alive
      = (shots.map (fun s => s.update dt)).filter
          (fun s => decide (s.getY > 0 ∧ s.getX < 420)) := by
  unfold ProjectileApp.updateShots
  rw [foldl_processShot_alive]
  rfl

/-- C3 counterexample: with two shots — `shotA` crossing `x = 420` airborne,
then `shotB` still alive and processed after it — the frame's candidates are
`shotB`'s numeric values, not the sentinels, and the persistent summary is
left unchanged, so the off-window shot gets no sentinel summary update at
that frame (and it is removed, so no later frame exists for it). -/
theorem claim_C3_counterexample :
    ((shotA.update 10).getY > 0 ∧ (shotA.update 10).getX > 420)
      ∧ (ProjectileApp.updateShots sqrtZero [shotA, shotB] 10).x
          ≠ Val.str "N/A (>420)"
      ∧ (ProjectileApp.updateShots sqrtZero [shotA, shotB] 10).v
          ≠ Val.str "N/A"
      ∧ runSummary (Val.str "old x", Val.str "old v")
          (ProjectileApp.updateShots sqrtZero [shotA, shotB] 10).x
          (ProjectileApp.updateShots sqrtZero [shotA, shotB] 10).y
          (ProjectileApp.updateShots sqrtZero [shotA, shotB] 10).v
        = (Val.str "old x", Val.str "old v") := by
  refine ⟨⟨?_, ?_⟩, ?_, ?_, ?_⟩ <;>
    norm_num [shotA, shotB, ShotTracker.update, ShotTracker.getX,
      ShotTracker.getY, ShotTracker.getVel, Projectile.update,
      Projectile.getVel, ProjectileApp.updateShots, processShot,
      FrameState.start, List.foldl, round1, runSummary, Val.le0, sqrtZero] <;>
    decide

/-- C3 amended: when the shot that exceeds `x = 420` while airborne is the
last-processed shot of the frame, the candidates are the sentinels
`"N/A (>420)"` / `"N/A"` with captured `y = 0.0`, the run-loop guard
`x != "" and y <= 0.0` fires at that same frame (the frame the shot leaves
the window, which is when the summary condition `y ≤ 0` holds), the summary
is set to the sentinels, and the shot is removed from the active
collection. -/
theorem claim_C3_sentinel (sq : ℚ → ℚ) (dt : ℚ) (front : List ShotTracker)
    (lastShot : ShotTracker) (fin0 : Val × Val)
    (hy : (lastShot.update dt).getY > 0)
    (hx : (lastShot.update dt).getX > 420) :
    (ProjectileApp.updateShots sq (front ++ [lastShot]) dt).x
        = Val.str "N/A (>420)"
      ∧ (ProjectileApp.updateShots sq (front ++ [lastShot]) dt).y
          = Val.num 0
      ∧ (ProjectileApp.updateShots sq (front ++ [lastShot]) dt).v
          = Val.str "N/A"
      ∧ runSummary fin0
          (ProjectileApp.updateShots sq (front ++ [lastShot]) dt).x
          (ProjectileApp.updateShots sq (front ++ [lastShot]) dt).y
          (ProjectileApp.updateShots sq (front ++ [lastShot]) dt).v
        = (Val.str "N/A (>420)", Val.str "N/A")
      ∧ lastShot.update dt
          ∉ (ProjectileApp.updateShots sq (front ++ [lastShot]) dt).alive := by
  have ht := updateShots_triple_last sq dt front lastShot
  rw [processShot_offwindow sq dt FrameState.start lastShot hy hx] at ht
  have hx3 : (ProjectileApp.updateShots sq (front ++ [lastShot]) dt).x
      = Val.str "N/A (>420)" := congrArg Prod.fst ht
  have hy3 : (ProjectileApp.updateShots sq (front ++ [lastShot]) dt).y
      = Val.num 0 := congrArg Prod.fst (congrArg Prod.snd ht)
  have hv3 : (ProjectileApp.updateShots sq (front ++ [lastShot]) dt).v
      = Val.str "N/A" := congrArg Prod.snd (congrArg Prod.snd ht)
  refine ⟨hx3, hy3, hv3, ?_, ?_⟩
  · rw [hx3, hy3, hv3]
    simp [runSummary, Val.le0]
  · unfold ProjectileApp.updateShots
    rw [foldl_processShot_alive]
    intro hmem
    rw [List.mem_append] at hmem
    rcases hmem with hmem | hmem
    · simp [FrameState.start] at hmem
    · have := (List.mem_filter.mp hmem).2
      rw [decide_eq_true_iff] at this
      exact absurd hx (by linarith [this.2])

/-- C6: for every non-empty active-shots collection (written
`front ++ [lastShot]`), the display candidates `(x, y, v)` the frame hands to
the summary are exactly those produced by processing the last shot in
iteration order alone — every earlier shot's values are overwritten. -/
theorem claim_C6_last_shot (sq : ℚ → ℚ) (dt : ℚ)
    (front : List ShotTracker) (lastShot : ShotTracker) :
    (ProjectileApp.updateShots sq (front ++ [lastShot]) dt).triple
      = (ProjectileApp.updateShots sq [lastShot] dt).triple :=
  updateShots_triple_last sq dt front lastShot

/-- C9: a shot whose post-update position has `y > 0` and `x` exactly 420
falls into the final (landed) branch of the classification: `alive` is not
extended, the shot's marker is undrawn, and the captured `y` candidate is
`0.0` — because both the alive test (`x < 420`) and the off-window test
(`x > 420`) are strict. -/
theorem claim_C9_boundary (sq : ℚ → ℚ) (dt : ℚ) (st : FrameState)
    (shot : ShotTracker) (_hy : (shot.update dt).getY > 0)
    (hx : (shot.update dt).getX = 420) :
    processShot sq dt st shot
      = { st with
          processed := st.processed ++ [(shot.update dt).undraw]
          x := Val.num (round1 (shot.update dt).getX)
          y := Val.num 0
          v := Val.num (round1 ((shot.update dt).getVel sq)) }
      ∧ ((shot.update dt).undraw).markerDrawn = false := by
  have h1 : ¬((shot.update dt).getY > 0 ∧ (shot.update dt).getX < 420) := by
    intro h
    rw [hx] at h
    exact absurd h.2 (by norm_num)
  have h2 : ¬((shot.update dt).getY > 0 ∧ (shot.update dt).getX > 420) := by
    intro h
    rw [hx] at h
    exact absurd h.2 (by norm_num)
  constructor
  · simp [processShot, h1, h2]
  · rfl

/-- C9 witness: the boundary shot `shotE` reaches exactly `x = 420` with
`y > 0` after one step, and the theorem's conclusion evaluates on it. -/
theorem claim_C9_boundary_witness :
    ((shotE.update 10).getY > 0 ∧ (shotE.update 10).getX = 420)
      ∧ (processShot sqrtZero 10 FrameState.start shotE
          = { FrameState.start with
              processed := FrameState.start.processed
                ++ [(shotE.update 10).undraw]
              x := Val.num (round1 (shotE.update 10).getX)
              y := Val.num 0
              v := Val.num (round1 ((shotE.update 10).getVel sqrtZero)) }
          ∧ ((shotE.update 10).undraw).markerDrawn = false) :=
  have hy : (shotE.update 10).getY > 0 := by
    norm_num [shotE, ShotTracker.update, ShotTracker.getY, Projectile.update]
  have hx : (shotE.update 10).getX = 420 := by
    norm_num [shotE, ShotTracker.update, ShotTracker.getX, Projectile.update]
  ⟨⟨hy, hx⟩, claim_C9_boundary sqrtZero 10 FrameState.start shotE hy hx⟩

/-- C3 witness: with `shotA` as the only (hence last-processed) shot, the
frame candidates are the sentinels, the summary is updated to them at that
frame, and the shot is removed. -/
theorem claim_C3_sentinel_witness :
    ((shotA.update 10).getY > 0 ∧ (shotA.update 10).getX > 420)
      ∧ ((ProjectileApp.updateShots sqrtZero ([] ++ [shotA]) 10).x
            = Val.str "N/A (>420)"
        ∧ (ProjectileApp.updateShots sqrtZero ([] ++ [shotA]) 10).y
            = Val.num 0
        ∧ (ProjectileApp.updateShots sqrtZero ([] ++ [shotA]) 10).v
            = Val.str "N/A"
        ∧ runSummary (Val.str "old x", Val.str "old v")
            (ProjectileApp.updateShots sqrtZero ([] ++ [shotA]) 10).x
            (ProjectileApp.updateShots sqrtZero ([] ++ [shotA]) 10).y
            (ProjectileApp.updateShots sqrtZero ([] ++ [shotA]) 10).v
          = (Val.str "N/A (>420)", Val.str "N/A")
        ∧ shotA.update 10
            ∉ (ProjectileApp.updateShots sqrtZero ([] ++ [shotA]) 10).alive) :=
  have hy : (shotA.update 10).getY > 0 := by
    norm_num [shotA, ShotTracker.update, ShotTracker.getY, Projectile.update]
  have hx : (shotA.update 10).getX > 420 := by
    norm_num [shotA, ShotTracker.update, ShotTracker.getX, Projectile.update]
  ⟨⟨hy, hx⟩,
    claim_C3_sentinel sqrtZero 10 [] shotA
      (Val.str "old x", Val.str "old v") hy hx⟩

/-- C10: with no active shots the frame returns `x = ""`, the run-loop guard
`x != "" and y <= 0.0` fails, and the persistent summary pair is returned
unchanged. -/
theorem claim_C10_empty_frame (sq : ℚ → ℚ) (dt : ℚ) (fin0 : Val × Val) :
    (ProjectileApp.updateShots sq [] dt).x = Val.str ""
      ∧ runSummary fin0 (ProjectileApp.updateShots sq [] dt).x
          (ProjectileApp.updateShots sq [] dt).y
          (ProjectileApp.updateShots sq [] dt).v = fin0 := by
  constructor
  · rfl
  · simp [ProjectileApp.updateShots, FrameState.start, runSummary]

end ProjSim
